import Mathlib

/-
Verification of the SNMP-Modbus bridge (src/snmp_modbus_bridge.py, with
configuration shapes from src/config_loader.py) against its specification.

Shallow embedding conventions:
  * An OID path is the tuple of integer components (`Path := List ℤ`), ordered
    by the lexicographic order on lists, which matches Python tuple comparison.
  * Python numbers in the transformation pipeline are modelled by `PyNum`:
    either an `int` (ℤ) or a `float`, idealised as an exact rational (ℚ).
    Python `round(x, n)` is modelled as exact round-half-to-even, and the
    `.2f` format as exact rounding to hundredths.
  * Fallible Python code is modelled with `Option`: `none` is the caught
    exception (or a failed Modbus read); the surrounding `try/except` logic is
    made explicit in each function.
  * The Modbus backend and the wall clock are external collaborators; their
    behaviour for one request is a `ModbusWorld` / `SysWorld` value.
  * Connections are identified by allocation order: creating a client consumes
    a fresh natural number, so that distinct creations yield distinct
    connections, mirroring distinct `ModbusTcpClient` objects.
-/

namespace SnmpBridge

/-! ## Data model -/

-- OID path: tuple of integer components, Python tuple order = lexicographic.
abbrev Path := List ℤ

-- SNMP protocol values as produced through api.PROTOCOL_MODULES[ver].
inductive SnmpValue where
  | integer (i : ℤ)
  | octetString (s : String)
  | gauge (i : ℤ)
  | counter (i : ℤ)
  | timeTicks (i : ℤ)
deriving DecidableEq, Repr

instance : Inhabited SnmpValue := ⟨.integer 0⟩

-- A Python number flowing through the pipeline: int or float (exact ℚ).
inductive PyNum where
  | int (i : ℤ)
  | float (q : ℚ)
deriving DecidableEq, Repr

def PyNum.toRat : PyNum → ℚ
  | .int i => (i : ℚ)
  | .float q => q

-- Python int() applied to a float truncates toward zero.
def pyInt (q : ℚ) : ℤ := if 0 ≤ q then ⌊q⌋ else ⌈q⌉

def PyNum.toIntTrunc : PyNum → ℤ
  | .int i => i
  | .float q => pyInt q

-- A Python value that can be a config literal: int or string.
inductive PyVal where
  | vInt (i : ℤ)
  | vStr (s : String)
deriving DecidableEq, Repr

-- Python str(value).
def PyVal.pyStr : PyVal → String
  | .vInt i => toString i
  | .vStr s => s

-- Digit-string parsing, modelling Python int(str) on simple numerals.
def digitsValAux : List Char → ℤ → Option ℤ
  | [], acc => some acc
  | c :: rest, acc =>
      if '0' ≤ c ∧ c ≤ '9' then
        digitsValAux rest (acc * 10 + ((c.toNat - '0'.toNat : ℕ) : ℤ))
      else none

def digitsVal (cs : List Char) : Option ℤ :=
  if cs.isEmpty then none else digitsValAux cs 0

def pyParseIntChars (cs : List Char) : Option ℤ :=
  match cs with
  | '-' :: rest => (digitsVal rest).map (fun n => -n)
  | '+' :: rest => digitsVal rest
  | _ => digitsVal cs

-- Python int() on a float or an int or a string.
def PyVal.pyToInt : PyVal → Option ℤ
  | .vInt i => some i
  | .vStr s => pyParseIntChars s.toList

-- str.strip('.'): drop leading and trailing dots.
def stripDots (cs : List Char) : List Char :=
  ((cs.dropWhile (· = '.')).reverse.dropWhile (· = '.')).reverse

-- str.split('.'): always yields at least one (possibly empty) segment.
def splitDots : List Char → List (List Char)
  | [] => [[]]
  | c :: rest =>
    match splitDots rest with
    | [] => [[]]
    | s :: ss => if c = '.' then [] :: s :: ss else (c :: s) :: ss

-- tuple(int(x) for x in oid.strip('.').split('.')), None on any ValueError.
def parse_oid (s : String) : Option Path :=
  (splitDots (stripDots s.toList)).mapM pyParseIntChars

/-! ## Configuration shapes (as produced by config_loader.py) -/

-- modbus_config dict: register_address, unit_id, function_code, data_type.
structure ModbusConfig where
  register_address : ℤ
  unit_id : ℤ
  function_code : ℤ
  data_type : String
deriving DecidableEq, Repr

-- data_processing dict; 'coefficient'/'offset' may be missing (KeyError at
-- use site), 'decimal_places' is read with .get(_, 0).
structure DataProcessing where
  ptype : Option String
  coefficient : Option ℚ
  offset : Option ℚ
  decimal_places : Option ℤ
deriving DecidableEq

-- self.snmp_config: data_type, and scale_factor read with .get(_, 1).
structure SnmpConfig where
  data_type : String
  scale_factor : Option ℚ
deriving DecidableEq

/-! ## ModbusOIDHandler: transformation pipeline -/

-- ModbusOIDHandler._convert_raw_data_type (total: its except-branch would
-- return raw_value unchanged, and the body itself cannot raise).
def convert_raw_data_type (mc : Option ModbusConfig) (raw : ℤ) : PyNum :=
  match mc with
  | none => .int raw
  | some c =>
    if c.data_type = "int16" then
      .int (if raw > 32767 then raw - 65536 else raw)
    else if c.data_type = "uint16" then .int raw
    else if c.data_type = "int32" then
      .int (if raw > 2147483647 then raw - 4294967296 else raw)
    else if c.data_type = "uint32" then .int raw
    else if c.data_type = "float32" then .float (raw : ℚ)
    else .int raw

-- Rounding as in Python round(): round-half-to-even (exact, idealised).
def roundHalfEven (q : ℚ) : ℤ :=
  if q - ⌊q⌋ < 1/2 then ⌊q⌋
  else if 1/2 < q - ⌊q⌋ then ⌊q⌋ + 1
  else if Even ⌊q⌋ then ⌊q⌋ else ⌊q⌋ + 1

-- Python round(q, n) for n > 0.
def pyRound (q : ℚ) (n : ℕ) : ℚ := ((roundHalfEven (q * 10 ^ n) : ℤ) : ℚ) / 10 ^ n

-- ModbusOIDHandler._process_value.  `none` in = failed read; `none` out =
-- caught exception (e.g. KeyError on 'coefficient'/'offset').  Multiplying an
-- int by the float coefficient promotes to float, so the multiply branch
-- always yields a float.
def process_value (mc : Option ModbusConfig) (dp : DataProcessing) :
    Option ℤ → Option PyNum
  | none => none
  | some raw =>
    let prv := convert_raw_data_type mc raw
    if dp.ptype = some "multiply" then
      match dp.coefficient, dp.offset with
      | some c, some o =>
        let pv : ℚ := prv.toRat * c + o
        let d := dp.decimal_places.getD 0
        if 0 < d then some (.float (pyRound pv d.toNat)) else some (.float pv)
      | _, _ => none
    else if dp.ptype = some "direct" then some prv
    else if dp.ptype = some "communication_status" then some (.int 1)
    else some prv

-- "%.2f" formatting of an exact rational (idealised): round to hundredths,
-- then print with exactly two fraction digits.
def formatHundredths (n : ℤ) : String :=
  (if n < 0 then "-" else "") ++ toString (n.natAbs / 100) ++ "." ++
    (if n.natAbs % 100 < 10 then "0" ++ toString (n.natAbs % 100)
     else toString (n.natAbs % 100))

def formatF2 (q : ℚ) : String := formatHundredths (roundHalfEven (q * 100))

-- ModbusOIDHandler._convert_to_snmp_value.  `none` = failed read or pipeline
-- exception; it yields the hard-coded read-failure sentinel Integer(-99998).
def convert_to_snmp_value (sc : SnmpConfig) : Option PyNum → SnmpValue
  | none => .integer (-99998)
  | some v =>
    let sf := sc.scale_factor.getD 1
    if sc.data_type = "Integer32" then
      match v with
      | .float q => .integer (pyInt (q * sf))
      | .int i => .integer i
    else if sc.data_type = "OctetString" then
      match v with
      | .float q => .octetString (formatF2 q)
      | .int i => .octetString (toString i)
    else if sc.data_type = "Gauge32" then
      match v with
      | .float q => .gauge (pyInt (q * sf))
      | .int i => .gauge i
    else if sc.data_type = "Counter32" then
      match v with
      | .float q => .counter (pyInt (q * sf))
      | .int i => .counter i
    else .integer v.toIntTrunc

/-! ## ModbusOIDHandler: connection management and reads -/

-- One request's view of the backend: whether the client was already
-- connected, whether a connect() attempt would succeed, and the raw value a
-- read would return (`none` = error reply, timeout or ModbusException).
structure ModbusWorld where
  connected : Bool
  connect_ok : Bool
  reply : Option ℤ
deriving DecidableEq

-- ModbusOIDHandler._get_modbus_client.  The stored client is `self`-state of
-- one handler; `fresh` numbers client objects in creation order.  Returns
-- (result, new stored client, new fresh counter).
def get_modbus_client (mtype : String) (client : Option ℕ) (fresh : ℕ) :
    Option ℕ × Option ℕ × ℕ :=
  match client with
  | some c => (some c, some c, fresh)
  | none =>
    if mtype = "TCP" then (some fresh, some fresh, fresh + 1)
    else if mtype = "RTU" then (some fresh, some fresh, fresh + 1)
    else (none, none, fresh)

-- ModbusOIDHandler._read_modbus_value.  Returns (raw value or failure, new
-- stored client, new fresh counter).  No failure path clears the client.
def read_modbus_value (mtype : String) (mc : Option ModbusConfig)
    (client : Option ℕ) (fresh : ℕ) (w : ModbusWorld) :
    Option ℤ × Option ℕ × ℕ :=
  match mc with
  | none => (some 1, client, fresh)
  | some c =>
    let r := get_modbus_client mtype client fresh
    match r.1 with
    | none => (none, r.2.1, r.2.2)
    | some _ =>
      if w.connected = false ∧ w.connect_ok = false then (none, r.2.1, r.2.2)
      else if c.function_code = 3 ∨ c.function_code = 4 ∨
              c.function_code = 1 ∨ c.function_code = 2 then
        match w.reply with
        | none => (none, r.2.1, r.2.2)
        | some v => (some v, r.2.1, r.2.2)
      else (none, r.2.1, r.2.2)

-- A constructed ModbusOIDHandler: the fields __call__ depends on.
structure ModbusHandler where
  name : Path
  modbus_config : Option ModbusConfig
  data_processing : DataProcessing
  snmp_config : SnmpConfig
deriving DecidableEq

-- ModbusOIDHandler.__call__: read, process, convert; returns the SNMP value
-- and the handler's new client state.
def ModbusOIDHandler_call (mtype : String) (h : ModbusHandler)
    (client : Option ℕ) (fresh : ℕ) (w : ModbusWorld) :
    SnmpValue × Option ℕ × ℕ :=
  let r := read_modbus_value mtype h.modbus_config client fresh w
  let processed := process_value h.modbus_config h.data_processing r.1
  (convert_to_snmp_value h.snmp_config processed, r.2.1, r.2.2)

/-! ## SystemOIDHandler -/

-- A constructed SystemOIDHandler: the fields __call__ depends on.
structure SystemHandler where
  name : Path
  oid_type : String
  snmp_data_type : String
  value : Option PyVal
deriving DecidableEq

-- External clock/formatting collaborators for one invocation: the computed
-- uptime ticks, and strftime of the current time at a given minute offset.
structure SysWorld where
  uptime_ticks : ℤ
  local_time_str : ℤ → String

-- The try-block body of SystemOIDHandler.__call__; `none` = raised exception.
def SystemOIDHandler_call_body (h : SystemHandler) (tz : String)
    (w : SysWorld) : Option SnmpValue :=
  if h.oid_type = "fixed_value" then
    if h.snmp_data_type = "OctetString" then
      (h.value).map (fun v => .octetString v.pyStr)
    else if h.snmp_data_type = "Integer" then
      match h.value with
      | none => none
      | some v =>
        match v.pyToInt with
        | none => none
        | some i => some (.integer i)
    else (h.value).map (fun v => .octetString v.pyStr)
  else if h.oid_type = "uptime" then some (.timeTicks w.uptime_ticks)
  else if h.oid_type = "utc_time" then
    match tz.toList with
    | c :: rest =>
      if c = '+' ∨ c = '-' then
        match digitsVal (rest.take 2) with
        | none => none
        | some hrs =>
          let sign : ℤ := if c = '+' then 1 else -1
          some (.octetString (w.local_time_str (sign * hrs * 60) ++ tz))
      else some (.octetString (w.local_time_str 0 ++ tz))
    | [] => some (.octetString (w.local_time_str 0 ++ tz))
  else some (.octetString "Unknown Type")

-- SystemOIDHandler.__call__: the except-branch returns OctetString("Error").
def SystemOIDHandler_call (h : SystemHandler) (tz : String) (w : SysWorld) :
    SnmpValue :=
  (SystemOIDHandler_call_body h tz w).getD (.octetString "Error")

/-! ## Request dispatcher (snmp_callback) -/

-- One registered handler as the dispatcher sees it for one request: its path
-- and the SNMP value its invocation handler(msg_ver) produces.
structure MibView where
  name : Path
  value : SnmpValue
deriving DecidableEq, Repr

instance : Inhabited MibView := ⟨⟨[], default⟩⟩

-- bisect.bisect (= bisect_right): binary search returning the insertion
-- point after any equal entries.  The CPython loop is given explicit fuel;
-- fuel a.length suffices since hi - lo shrinks every iteration.
def bisectLoop (a : List Path) (x : Path) : ℕ → ℕ → ℕ → ℕ
  | 0, lo, _ => lo
  | fuel + 1, lo, hi =>
    if lo < hi then
      if x < a.getD ((lo + hi) / 2) [] then bisectLoop a x fuel lo ((lo + hi) / 2)
      else bisectLoop a x fuel (((lo + hi) / 2) + 1) hi
    else lo

def bisectRight (a : List Path) (x : Path) : ℕ := bisectLoop a x a.length 0 a.length

inductive ReqKind where
  | get
  | getNext
  | other
deriving DecidableEq

inductive ErrorStatus where
  | noError
  | genErr
deriving DecidableEq

-- The parts of the response PDU the core fills in: the varbinds, the error
-- status, and the 1-based positions flagged with set_end_of_mib_error.
structure Response where
  varBinds : List (Path × SnmpValue)
  errorStatus : ErrorStatus
  endOfMibIndices : List ℕ
deriving DecidableEq

-- mib_handlers_idx = {handler.name: handler for handler in mib_handlers}:
-- dict construction iterates in order, later entries overwriting earlier.
def mib_handlers_idx (handlers : List MibView) (oid : Path) : Option MibView :=
  handlers.foldl (fun acc h => if h.name = oid then some h else acc) none

-- The GETNEXT loop: error_index is incremented for every varbind; on an
-- exhausted lookup the original (oid, val) is kept and the current
-- error_index recorded for set_end_of_mib_error.
def processGetNext (handlers : List MibView) :
    List (Path × SnmpValue) → ℕ → List (Path × SnmpValue) × List ℕ
  | [], _ => ([], [])
  | (oid, val) :: rest, error_index =>
    let ei := error_index + 1
    let next_idx := bisectRight (handlers.map MibView.name) oid
    let r := processGetNext handlers rest ei
    if next_idx = handlers.length then ((oid, val) :: r.1, ei :: r.2)
    else
      let h := handlers.getD next_idx default
      ((h.name, h.value) :: r.1, r.2)

-- The GET loop: exact match via the index dict, miss bound to Integer(-99997).
def processGet (handlers : List MibView) (binds : List (Path × SnmpValue)) :
    List (Path × SnmpValue) :=
  binds.map fun b =>
    match mib_handlers_idx handlers b.1 with
    | some handler => (b.1, handler.value)
    | none => (b.1, SnmpValue.integer (-99997))

-- snmp_callback, for one decoded message: branch on the PDU kind; only the
-- unsupported branch sets an error status; only GETNEXT queues
-- set_end_of_mib_error calls.
def snmp_callback (handlers : List MibView) (kind : ReqKind)
    (binds : List (Path × SnmpValue)) : Response :=
  match kind with
  | .getNext =>
    let r := processGetNext handlers binds 0
    ⟨r.1, .noError, r.2⟩
  | .get => ⟨processGet handlers binds, .noError, []⟩
  | .other => ⟨[], .genErr, []⟩

-- Stated from the claim's words, for comparison with the dispatcher: the
-- end-of-space indicator positions are the 1-based indices, counted across
-- ALL bindings of the request, of those bindings for which no registered
-- path is strictly greater than the requested path.
def endOfSpaceIndicesSpec (handlers : List MibView) :
    List (Path × SnmpValue) → ℕ → List ℕ
  | [], _ => []
  | (oid, _) :: rest, pos =>
    if ∀ h ∈ handlers, ¬ oid < h.name then
      (pos + 1) :: endOfSpaceIndicesSpec handlers rest (pos + 1)
    else endOfSpaceIndicesSpec handlers rest (pos + 1)

/-! ## Registry construction (create_mib_handlers) -/

-- A system-OID config dict as built by config_loader.get_system_oid_mapping.
structure SystemOidConfig where
  oid : String
  description : String
  oid_type : String
  snmp_data_type : String
  value : Option PyVal
deriving DecidableEq

-- A Modbus-OID config dict as built by config_loader.get_snmp_oid_mapping;
-- snmp_data_type is read in __init__ with .get(_, 'Integer32').
structure ModbusOidConfig where
  oid : String
  description : String
  modbus_config : Option ModbusConfig
  data_processing : DataProcessing
  snmp_data_type : Option String
deriving DecidableEq

-- A constructed handler of either kind, as stored in the mib_handlers list.
inductive BridgeHandler where
  | system (h : SystemHandler)
  | modbus (h : ModbusHandler)
deriving DecidableEq

def BridgeHandler.name : BridgeHandler → Path
  | .system h => h.name
  | .modbus h => h.name

-- SystemOIDHandler.__init__: fails (is skipped) when the OID string does not
-- parse, or when a fixed_value entry lacks its 'value'.
def SystemOIDHandler_init (cfg : SystemOidConfig) : Option SystemHandler :=
  match parse_oid cfg.oid with
  | none => none
  | some name =>
    if cfg.oid_type = "fixed_value" then
      match cfg.value with
      | some _ => some ⟨name, cfg.oid_type, cfg.snmp_data_type, cfg.value⟩
      | none => none
    else some ⟨name, cfg.oid_type, cfg.snmp_data_type, none⟩

-- ModbusOIDHandler.__init__: fails (is skipped) when the OID does not parse.
def ModbusOIDHandler_init (cfg : ModbusOidConfig) : Option ModbusHandler :=
  (parse_oid cfg.oid).map fun name =>
    ⟨name, cfg.modbus_config, cfg.data_processing,
      ⟨cfg.snmp_data_type.getD "Integer32", none⟩⟩

-- handlers.sort(key=lambda x: x.name): stable ascending sort by path.
def handlerLE (a b : BridgeHandler) : Prop := a.name ≤ b.name

instance : DecidableRel handlerLE :=
  fun a b => inferInstanceAs (Decidable (a.name ≤ b.name))

instance : IsTotal BridgeHandler handlerLE := ⟨fun a b => le_total a.name b.name⟩

instance : IsTrans BridgeHandler handlerLE := ⟨fun _ _ _ h1 h2 => le_trans h1 h2⟩

-- create_mib_handlers: build system then Modbus handlers, skipping any whose
-- constructor raises, then sort the combined list by path.  There is no
-- duplicate-path check and no error channel.
def create_mib_handlers (sys : List SystemOidConfig)
    (mod : List ModbusOidConfig) : List BridgeHandler :=
  ((sys.filterMap fun c => (SystemOIDHandler_init c).map BridgeHandler.system) ++
    (mod.filterMap fun c => (ModbusOIDHandler_init c).map BridgeHandler.modbus)).insertionSort
    handlerLE

/-! ## Correctness of the bisect-based successor lookup -/

theorem bisectLoop_spec (a : List Path) (x : Path) (hs : a.Sorted (· ≤ ·)) :
    ∀ (fuel lo hi : ℕ), hi - lo ≤ fuel → lo ≤ hi → hi ≤ a.length →
    (∀ j (hj : j < a.length), j < lo → a[j] ≤ x) →
    (∀ j (hj : j < a.length), hi ≤ j → x < a[j]) →
    lo ≤ bisectLoop a x fuel lo hi ∧ bisectLoop a x fuel lo hi ≤ hi ∧
      (∀ j (hj : j < a.length), j < bisectLoop a x fuel lo hi → a[j] ≤ x) ∧
      (∀ j (hj : j < a.length), bisectLoop a x fuel lo hi ≤ j → x < a[j]) := by
  intro fuel
  induction fuel with
  | zero =>
    intro lo hi hfuel hlh _ hlow hhigh
    have : lo = hi := by omega
    subst this
    exact ⟨le_refl _, le_refl _, hlow, fun j hj h => hhigh j hj h⟩
  | succ fuel ih =>
    intro lo hi hfuel hlh hlen hlow hhigh
    by_cases hlt : lo < hi
    · have hmid : (lo + hi) / 2 < a.length := by omega
      have hmid_lo : lo ≤ (lo + hi) / 2 := by omega
      have hmid_hi : (lo + hi) / 2 < hi := by omega
      have hgetD : a.getD ((lo + hi) / 2) [] = a[(lo + hi) / 2] :=
        List.getD_eq_getElem a [] hmid
      by_cases hcmp : x < a.getD ((lo + hi) / 2) []
      · have hstep : bisectLoop a x (fuel + 1) lo hi = bisectLoop a x fuel lo ((lo + hi) / 2) := by
          simp only [bisectLoop, if_pos hlt, if_pos hcmp]
        rw [hstep]
        have hhigh' : ∀ j (hj : j < a.length), (lo + hi) / 2 ≤ j → x < a[j] := by
          intro j hj hmj
          rcases eq_or_lt_of_le hmj with h | h
          · rw [hgetD] at hcmp
            exact h ▸ hcmp
          · calc x < a[(lo + hi) / 2] := hgetD ▸ hcmp
              _ ≤ a[j] := hs.rel_get_of_lt (by exact h)
        have := ih lo ((lo + hi) / 2) (by omega) (by omega) (by omega) hlow hhigh'
        exact ⟨this.1, le_trans this.2.1 (le_of_lt hmid_hi), this.2.2.1, this.2.2.2⟩
      · have hstep : bisectLoop a x (fuel + 1) lo hi = bisectLoop a x fuel ((lo + hi) / 2 + 1) hi := by
          simp only [bisectLoop, if_pos hlt, if_neg hcmp]
        rw [hstep]
        have hle : a[(lo + hi) / 2] ≤ x := le_of_not_lt (hgetD ▸ hcmp)
        have hlow' : ∀ j (hj : j < a.length), j < (lo + hi) / 2 + 1 → a[j] ≤ x := by
          intro j hj hmj
          rcases eq_or_lt_of_le (Nat.lt_succ_iff.mp hmj) with h | h
          · subst h
            exact hle
          · calc a[j] ≤ a[(lo + hi) / 2] := hs.rel_get_of_lt (by exact h)
              _ ≤ x := hle
        have := ih ((lo + hi) / 2 + 1) hi (by omega) (by omega) hlen hlow' hhigh
        exact ⟨le_trans (by omega) this.1, this.2.1, this.2.2.1, this.2.2.2⟩
    · have hstep : bisectLoop a x (fuel + 1) lo hi = lo := by
        simp only [bisectLoop, if_neg hlt]
      rw [hstep]
      have : lo = hi := by omega
      exact ⟨le_refl _, le_of_eq this, hlow, fun j hj h => hhigh j hj (this ▸ h)⟩

theorem bisectRight_spec (a : List Path) (x : Path) (hs : a.Sorted (· ≤ ·)) :
    bisectRight a x ≤ a.length ∧
      (∀ j (hj : j < a.length), j < bisectRight a x → a[j] ≤ x) ∧
      (∀ j (hj : j < a.length), bisectRight a x ≤ j → x < a[j]) := by
  have := bisectLoop_spec a x hs a.length 0 a.length (by omega) (by omega)
    (le_refl _) (by intro j hj h; omega) (by intro j hj h; omega)
  exact ⟨this.2.1, this.2.2.1, this.2.2.2⟩

theorem bisectRight_eq_length_iff (a : List Path) (x : Path)
    (hs : a.Sorted (· ≤ ·)) :
    bisectRight a x = a.length ↔ ∀ p ∈ a, ¬ x < p := by
  obtain ⟨hle, hlow, hhigh⟩ := bisectRight_spec a x hs
  constructor
  · intro heq p hp
    obtain ⟨⟨j, hj⟩, rfl⟩ := List.mem_iff_get.mp hp
    simp only [List.get_eq_getElem]
    exact not_lt_of_le (hlow j hj (heq ▸ hj))
  · intro hall
    by_contra hne
    have hlt : bisectRight a x < a.length := lt_of_le_of_ne hle hne
    exact hall _ (List.getElem_mem hlt) (hhigh _ hlt (le_refl _))

/-- Claim C1: for every registered set of path entries S (sorted ascending by
path tuple) and every query path q, the GetNext resolution (bisect-based
successor lookup) returns the entry whose path is the minimum element of S
strictly greater than q under lexicographic tuple order, and signals
end-of-space (insertion point = length) exactly when no registered path is
strictly greater than q. -/
theorem C1_resolveSuccessor_correct (S : List Path) (q : Path)
    (hs : S.Sorted (· ≤ ·)) :
    (bisectRight S q = S.length ↔ ∀ p ∈ S, ¬ q < p) ∧
    ∀ (h : bisectRight S q < S.length),
      q < S[bisectRight S q] ∧ ∀ p ∈ S, q < p → S[bisectRight S q] ≤ p := by
  obtain ⟨hle, hlow, hhigh⟩ := bisectRight_spec S q hs
  refine ⟨bisectRight_eq_length_iff S q hs, fun h => ⟨hhigh _ h (le_refl _), ?_⟩⟩
  intro p hp hqp
  obtain ⟨⟨j, hj⟩, rfl⟩ := List.mem_iff_get.mp hp
  simp only [List.get_eq_getElem] at hqp ⊢
  by_cases hji : j < bisectRight S q
  · exact absurd hqp (not_lt_of_le (hlow j hj hji))
  · rcases eq_or_lt_of_le (le_of_not_lt hji) with heq | hlt
    · have hgg : S.get ⟨bisectRight S q, h⟩ = S.get ⟨j, hj⟩ := by
        congr 1
        exact Fin.ext heq
      simpa using le_of_eq hgg
    · have hrel := @List.Sorted.rel_get_of_lt _ _ _ hs ⟨bisectRight S q, h⟩ ⟨j, hj⟩
        (by exact hlt)
      simpa using hrel

theorem C1_witness :
    List.Sorted (· ≤ ·) ([[1, 1], [1, 3]] : List Path) ∧
    bisectRight [[1, 1], [1, 3]] [1, 3] = 2 ∧
    (∀ p ∈ ([[1, 1], [1, 3]] : List Path), ¬ [1, 3] < p) :=
  ⟨by decide,
   (C1_resolveSuccessor_correct [[1, 1], [1, 3]] [1, 3] (by decide)).1.mpr
     (by decide),
   by decide⟩

/-! ## The exact-match index dict -/

theorem mib_handlers_idx_foldl_none (oid : Path) :
    ∀ (l : List MibView) (acc : Option MibView),
      (l.foldl (fun acc h => if h.name = oid then some h else acc) acc = none ↔
        acc = none ∧ ∀ h ∈ l, h.name ≠ oid) := by
  intro l
  induction l with
  | nil => simp
  | cons hd tl ih =>
    intro acc
    simp only [List.foldl_cons, ih, List.mem_cons]
    by_cases hn : hd.name = oid
    · simp [hn]
    · simp only [if_neg hn]
      constructor
      · rintro ⟨h1, h2⟩
        exact ⟨h1, by rintro h (rfl | hm); exact hn; exact h2 h hm⟩
      · rintro ⟨h1, h2⟩
        exact ⟨h1, fun h hm => h2 h (Or.inr hm)⟩

theorem mib_handlers_idx_foldl_some (oid : Path) :
    ∀ (l : List MibView) (acc : Option MibView) (h0 : MibView),
      l.foldl (fun acc h => if h.name = oid then some h else acc) acc = some h0 →
      acc = some h0 ∨ (h0 ∈ l ∧ h0.name = oid) := by
  intro l
  induction l with
  | nil => simp
  | cons hd tl ih =>
    intro acc h0 hfold
    simp only [List.foldl_cons] at hfold
    rcases ih _ _ hfold with hacc | ⟨hm, hn⟩
    · by_cases hn : hd.name = oid
      · rw [if_pos hn] at hacc
        exact Or.inr ⟨by simp [← Option.some_inj.mp hacc], by
          rw [← Option.some_inj.mp hacc]; exact hn⟩
      · rw [if_neg hn] at hacc
        exact Or.inl hacc
    · exact Or.inr ⟨List.mem_cons_of_mem _ hm, hn⟩

theorem mib_handlers_idx_eq_none_iff (handlers : List MibView) (oid : Path) :
    mib_handlers_idx handlers oid = none ↔ ∀ h ∈ handlers, h.name ≠ oid := by
  rw [mib_handlers_idx, mib_handlers_idx_foldl_none]
  simp

theorem mib_handlers_idx_mem (handlers : List MibView) (oid : Path)
    (h0 : MibView) (h : mib_handlers_idx handlers oid = some h0) :
    h0 ∈ handlers ∧ h0.name = oid := by
  rcases mib_handlers_idx_foldl_some oid handlers none h0 h with hacc | hok
  · exact absurd hacc (by simp)
  · exact hok

theorem getD_map_of_lt {α β : Type} [Inhabited α] [Inhabited β] (f : α → β)
    (l : List α) (i : ℕ) (h : i < l.length) :
    (l.map f).getD i default = f (l.getD i default) := by
  rw [List.getD_eq_getElem (l.map f) default (by simpa using h),
    List.getD_eq_getElem l default h, List.getElem_map]

/-- Claim C3: for every Get request, the reply's protocol-level status is
success and no end-of-MIB indicators are queued; every requested path with no
exact match in the registry is bound to the undefined-path sentinel
Integer(-99997); every requested path with an exact match is bound to the
value produced by its entry (the entry the index dict resolves, which is a
registered entry with that exact path). -/
theorem C3_get_miss_sentinel (handlers : List MibView)
    (binds : List (Path × SnmpValue)) :
    (snmp_callback handlers .get binds).errorStatus = .noError ∧
    (snmp_callback handlers .get binds).endOfMibIndices = [] ∧
    (snmp_callback handlers .get binds).varBinds.length = binds.length ∧
    (∀ oid h0, mib_handlers_idx handlers oid = some h0 →
      h0 ∈ handlers ∧ h0.name = oid) ∧
    ∀ i, i < binds.length →
      ((∀ h ∈ handlers, h.name ≠ (binds.getD i default).1) →
        (snmp_callback handlers .get binds).varBinds.getD i default =
          ((binds.getD i default).1, .integer (-99997))) ∧
      (∀ h0, mib_handlers_idx handlers (binds.getD i default).1 = some h0 →
        (snmp_callback handlers .get binds).varBinds.getD i default =
          ((binds.getD i default).1, h0.value)) := by
  refine ⟨rfl, rfl, by simp [snmp_callback, processGet], mib_handlers_idx_mem handlers, ?_⟩
  intro i hi
  have hbody : (snmp_callback handlers .get binds).varBinds.getD i default =
      (match mib_handlers_idx handlers (binds.getD i default).1 with
        | some handler => ((binds.getD i default).1, handler.value)
        | none => ((binds.getD i default).1, SnmpValue.integer (-99997))) := by
    show (processGet handlers binds).getD i default = _
    rw [processGet, getD_map_of_lt _ _ _ hi]
  constructor
  · intro hmiss
    rw [hbody, (mib_handlers_idx_eq_none_iff handlers _).mpr hmiss]
  · intro h0 hdict
    rw [hbody, hdict]

theorem C3_witness :
    (∀ h ∈ ([⟨[1, 2], .integer 5⟩] : List MibView), h.name ≠ [9]) ∧
    (snmp_callback [⟨[1, 2], .integer 5⟩] .get
        [([1, 2], .integer 0), ([9], .integer 0)]).varBinds.getD 1 default =
      ([9], .integer (-99997)) ∧
    mib_handlers_idx [⟨[1, 2], .integer 5⟩] [1, 2] = some ⟨[1, 2], .integer 5⟩ ∧
    (snmp_callback [⟨[1, 2], .integer 5⟩] .get
        [([1, 2], .integer 0), ([9], .integer 0)]).varBinds.getD 0 default =
      ([1, 2], .integer 5) :=
  ⟨by decide,
   ((C3_get_miss_sentinel [⟨[1, 2], .integer 5⟩]
       [([1, 2], .integer 0), ([9], .integer 0)]).2.2.2.2 1 (by decide)).1
     (by decide),
   by decide,
   ((C3_get_miss_sentinel [⟨[1, 2], .integer 5⟩]
       [([1, 2], .integer 0), ([9], .integer 0)]).2.2.2.2 0 (by decide)).2
     ⟨[1, 2], .integer 5⟩ (by decide)⟩

/-! ## The GETNEXT loop -/

theorem processGetNext_fst_length (handlers : List MibView) :
    ∀ (binds : List (Path × SnmpValue)) (k : ℕ),
      (processGetNext handlers binds k).1.length = binds.length := by
  intro binds
  induction binds with
  | nil => intro k; rfl
  | cons b rest ih =>
    intro k
    obtain ⟨oid, val⟩ := b
    simp only [processGetNext]
    split
    · simpa using ih (k + 1)
    · simpa using ih (k + 1)

theorem processGetNext_fst_exhausted (handlers : List MibView) :
    ∀ (binds : List (Path × SnmpValue)) (k i : ℕ), i < binds.length →
      bisectRight (handlers.map MibView.name) (binds.getD i default).1 =
        handlers.length →
      (processGetNext handlers binds k).1.getD i default =
        binds.getD i default := by
  intro binds
  induction binds with
  | nil => intro k i hi; simp at hi
  | cons b rest ih =>
    intro k i hi hbis
    obtain ⟨oid, val⟩ := b
    cases i with
    | zero =>
      simp only [List.getD_cons_zero] at hbis ⊢
      simp only [processGetNext, if_pos hbis, List.getD_cons_zero]
    | succ i =>
      simp only [List.getD_cons_succ] at hbis ⊢
      have hi' : i < rest.length := by simpa using hi
      simp only [processGetNext]
      split
      · simpa using ih (k + 1) i hi' hbis
      · simpa using ih (k + 1) i hi' hbis

theorem processGetNext_snd_spec (handlers : List MibView)
    (hs : (handlers.map MibView.name).Sorted (· ≤ ·)) :
    ∀ (binds : List (Path × SnmpValue)) (k : ℕ),
      (processGetNext handlers binds k).2 = endOfSpaceIndicesSpec handlers binds k := by
  intro binds
  induction binds with
  | nil => intro k; rfl
  | cons b rest ih =>
    intro k
    obtain ⟨oid, val⟩ := b
    have hiff : (bisectRight (handlers.map MibView.name) oid = handlers.length) ↔
        (∀ h ∈ handlers, ¬ oid < h.name) := by
      rw [show handlers.length = (handlers.map MibView.name).length by
            simp [List.length_map],
        bisectRight_eq_length_iff _ _ hs]
      constructor
      · intro hall h hm
        exact hall h.name (List.mem_map_of_mem _ hm)
      · intro hall p hp
        obtain ⟨h, hm, rfl⟩ := List.mem_map.mp hp
        exact hall h hm
    by_cases hc : bisectRight (handlers.map MibView.name) oid = handlers.length
    · simp only [processGetNext, if_pos hc, endOfSpaceIndicesSpec,
        if_pos (hiff.mp hc)]
      simpa using ih (k + 1)
    · simp only [processGetNext, if_neg hc, endOfSpaceIndicesSpec,
        if_neg (fun hh => hc (hiff.mpr hh))]
      exact ih (k + 1)

/-- Claim C4: for every GetNext request, the queued end-of-MIB indicators are
exactly at the 1-based ordinal positions, counted across ALL bindings of the
request, of those bindings whose successor lookup exhausts the registry (no
registered path strictly greater); each such binding keeps its original
(path, value) pair unchanged.  In particular a single-binding request for the
maximum registered path returns that path back with the indicator at ordinal
position 1 (see the witness). -/
theorem C4_getnext_end_of_space (handlers : List MibView)
    (binds : List (Path × SnmpValue))
    (hs : (handlers.map MibView.name).Sorted (· ≤ ·)) :
    (snmp_callback handlers .getNext binds).endOfMibIndices =
      endOfSpaceIndicesSpec handlers binds 0 ∧
    (snmp_callback handlers .getNext binds).varBinds.length = binds.length ∧
    ∀ i, i < binds.length →
      (∀ h ∈ handlers, ¬ (binds.getD i default).1 < h.name) →
      (snmp_callback handlers .getNext binds).varBinds.getD i default =
        binds.getD i default := by
  refine ⟨processGetNext_snd_spec handlers hs binds 0,
    processGetNext_fst_length handlers binds 0, ?_⟩
  intro i hi hnone
  apply processGetNext_fst_exhausted handlers binds 0 i hi
  rw [show handlers.length = (handlers.map MibView.name).length by
        simp [List.length_map],
    bisectRight_eq_length_iff _ _ hs]
  intro p hp
  obtain ⟨h, hm, rfl⟩ := List.mem_map.mp hp
  exact hnone h hm

theorem C4_witness :
    List.Sorted (· ≤ ·)
      (([⟨[1, 1], .integer 5⟩, ⟨[1, 3], .integer 7⟩] : List MibView).map
        MibView.name) ∧
    (snmp_callback [⟨[1, 1], .integer 5⟩, ⟨[1, 3], .integer 7⟩] .getNext
        [([1, 3], .integer 0)]).endOfMibIndices = [1] ∧
    (snmp_callback [⟨[1, 1], .integer 5⟩, ⟨[1, 3], .integer 7⟩] .getNext
        [([1, 3], .integer 0)]).varBinds.getD 0 default = ([1, 3], .integer 0) :=
  ⟨by decide,
   (C4_getnext_end_of_space [⟨[1, 1], .integer 5⟩, ⟨[1, 3], .integer 7⟩]
       [([1, 3], .integer 0)] (by decide)).1.trans (by decide),
   (C4_getnext_end_of_space [⟨[1, 1], .integer 5⟩, ⟨[1, 3], .integer 7⟩]
       [([1, 3], .integer 0)] (by decide)).2.2 0 (by decide) (by decide)⟩

/-! ## Failure collapse at the entry-invocation boundary -/

theorem read_modbus_value_fails (mtype : String) (c : ModbusConfig)
    (client : Option ℕ) (fresh : ℕ) (w : ModbusWorld)
    (hfail : (w.connected = false ∧ w.connect_ok = false) ∨ w.reply = none ∨
      (c.function_code ≠ 3 ∧ c.function_code ≠ 4 ∧ c.function_code ≠ 1 ∧
        c.function_code ≠ 2)) :
    (read_modbus_value mtype (some c) client fresh w).1 = none := by
  simp only [read_modbus_value]
  rcases hcl : (get_modbus_client mtype client fresh).1 with _ | cl
  · rfl
  · simp only []
    rcases hfail with ⟨h1, h2⟩ | hrep | ⟨h3, h4, h5, h6⟩
    · rw [if_pos ⟨h1, h2⟩]
    · by_cases hconn : w.connected = false ∧ w.connect_ok = false
      · rw [if_pos hconn]
      · rw [if_neg hconn]
        by_cases hfc : c.function_code = 3 ∨ c.function_code = 4 ∨
            c.function_code = 1 ∨ c.function_code = 2
        · rw [if_pos hfc, hrep]
        · rw [if_neg hfc]
    · by_cases hconn : w.connected = false ∧ w.connect_ok = false
      · rw [if_pos hconn]
      · rw [if_neg hconn, if_neg (by tauto)]

/-- Claim C2: for a backend-mapped entry (one with a register spec), if the
backend read fails (connect failure / timeout, error reply or exception, or
an unsupported function code), or an exception occurs in the transformation
pipeline (a missing multiply coefficient/offset), the entry's produced value
is Integer(-99998) — the read-failure sentinel encoded as the protocol
Integer type — regardless of the configured target value kind; the entry
invocation is a total function, so nothing propagates past it. -/
theorem C2_failure_collapses_to_sentinel (mtype : String) (h : ModbusHandler)
    (client : Option ℕ) (fresh : ℕ) (w : ModbusWorld) (c : ModbusConfig)
    (hmc : h.modbus_config = some c)
    (hfail : (w.connected = false ∧ w.connect_ok = false) ∨ w.reply = none ∨
      (c.function_code ≠ 3 ∧ c.function_code ≠ 4 ∧ c.function_code ≠ 1 ∧
        c.function_code ≠ 2) ∨
      (h.data_processing.ptype = some "multiply" ∧
        (h.data_processing.coefficient = none ∨
          h.data_processing.offset = none))) :
    (ModbusOIDHandler_call mtype h client fresh w).1 = .integer (-99998) := by
  suffices hp : process_value h.modbus_config h.data_processing
      (read_modbus_value mtype h.modbus_config client fresh w).1 = none by
    simp only [ModbusOIDHandler_call, hp, convert_to_snmp_value]
  rcases hfail with hread | hread | hread | ⟨hmul, hkey⟩
  · rw [hmc, read_modbus_value_fails mtype c client fresh w (Or.inl hread)]
    rfl
  · rw [hmc, read_modbus_value_fails mtype c client fresh w (Or.inr (Or.inl hread))]
    rfl
  · rw [hmc, read_modbus_value_fails mtype c client fresh w (Or.inr (Or.inr hread))]
    rfl
  · rcases hraw : (read_modbus_value mtype h.modbus_config client fresh w).1 with _ | raw
    · rfl
    · simp only [process_value, hmul, if_pos]
      rcases hkey with hc | ho
      · rw [hc]
      · rw [ho]
        rcases h.data_processing.coefficient with _ | co <;> rfl

theorem C2_witness :
    (⟨[1], some ⟨1, 1, 3, "uint16"⟩, ⟨some "direct", none, none, none⟩,
        ⟨"Gauge32", none⟩⟩ : ModbusHandler).modbus_config =
      some ⟨1, 1, 3, "uint16"⟩ ∧
    (ModbusOIDHandler_call "TCP"
        ⟨[1], some ⟨1, 1, 3, "uint16"⟩, ⟨some "direct", none, none, none⟩,
          ⟨"Gauge32", none⟩⟩ none 0 ⟨false, false, none⟩).1 =
      .integer (-99998) :=
  ⟨by decide,
   C2_failure_collapses_to_sentinel "TCP"
     ⟨[1], some ⟨1, 1, 3, "uint16"⟩, ⟨some "direct", none, none, none⟩,
       ⟨"Gauge32", none⟩⟩ none 0 ⟨false, false, none⟩ ⟨1, 1, 3, "uint16"⟩
     (by decide) (Or.inl (by decide))⟩

/-! ## Registry construction: duplicates are not rejected -/

/-- Claim C5 counterexample: registry construction does NOT reject duplicate
paths and does not abort — feeding the same OID config twice yields a
successfully built two-element registry whose two entries carry the same
path.  There is no duplicate check and no error channel anywhere in
create_mib_handlers or main. -/
theorem C5_counterexample :
    (create_mib_handlers []
        [⟨"1.3", "t", none, ⟨some "communication_status", none, none, none⟩,
          none⟩,
         ⟨"1.3", "t", none, ⟨some "communication_status", none, none, none⟩,
          none⟩]).map BridgeHandler.name = [[1, 3], [1, 3]] ∧
    ¬ ((create_mib_handlers []
        [⟨"1.3", "t", none, ⟨some "communication_status", none, none, none⟩,
          none⟩,
         ⟨"1.3", "t", none, ⟨some "communication_status", none, none, none⟩,
          none⟩]).map BridgeHandler.name).Nodup := by
  constructor
  · decide
  · decide

/-- Claim C5 (amended): registry construction at startup collects all
successfully constructed entries and sorts them ascending by path; duplicate
paths are NOT rejected — construction is total (never aborts), and every
constructed entry, duplicates included, is retained in the sorted registry
(the result is a permutation of the constructed handler lists). -/
theorem C5_construction_sorts_keeps_duplicates (sys : List SystemOidConfig)
    (mod : List ModbusOidConfig) :
    List.Sorted handlerLE (create_mib_handlers sys mod) ∧
    List.Perm (create_mib_handlers sys mod)
      ((sys.filterMap fun c => (SystemOIDHandler_init c).map BridgeHandler.system) ++
        (mod.filterMap fun c => (ModbusOIDHandler_init c).map BridgeHandler.modbus)) :=
  ⟨List.sorted_insertionSort handlerLE _, List.perm_insertionSort handlerLE _⟩

/-! ## Connection management is per handler instance -/

/-- Claim C6 counterexample: connections are NOT maintained per configured
backend and are NOT shared across entries.  Two entries (each starting with
no client, against the one configured TCP backend) each create their own
client object: the two acquisitions return two distinct live connections. -/
theorem C6_counterexample :
    (get_modbus_client "TCP" none 0).1 = some 0 ∧
    (get_modbus_client "TCP" none (get_modbus_client "TCP" none 0).2.2).1 =
      some 1 ∧
    (get_modbus_client "TCP" none 0).1 ≠
      (get_modbus_client "TCP" none (get_modbus_client "TCP" none 0).2.2).1 := by
  refine ⟨by decide, by decide, by decide⟩

/-- Claim C6 (amended): each entry (handler instance) maintains zero or one
live backend connection of its own: acquisition is idempotent per entry
(returning the stored connection unchanged when present, creating none), the
connection is created lazily on first acquisition (for a supported backend
kind), and a read — whether it succeeds or fails — leaves the entry's
connection state in place (and allocates nothing new), so the next read
re-checks and re-establishes the same connection. -/
theorem C6_connection_per_entry (mtype : String) (fresh : ℕ) (cl : ℕ) :
    get_modbus_client mtype (some cl) fresh = (some cl, some cl, fresh) ∧
    (mtype = "TCP" ∨ mtype = "RTU" →
      get_modbus_client mtype none fresh = (some fresh, some fresh, fresh + 1)) ∧
    (∀ (mc : Option ModbusConfig) (w : ModbusWorld),
      (read_modbus_value mtype mc (some cl) fresh w).2.1 = some cl ∧
      (read_modbus_value mtype mc (some cl) fresh w).2.2 = fresh) := by
  refine ⟨rfl, ?_, ?_⟩
  · rintro (rfl | rfl)
    · rfl
    · rfl
  · intro mc w
    rcases mc with _ | c
    · exact ⟨rfl, rfl⟩
    · simp only [read_modbus_value, get_modbus_client]
      by_cases hconn : w.connected = false ∧ w.connect_ok = false
      · rw [if_pos hconn]
        exact ⟨rfl, rfl⟩
      · rw [if_neg hconn]
        by_cases hfc : c.function_code = 3 ∨ c.function_code = 4 ∨
            c.function_code = 1 ∨ c.function_code = 2
        · rw [if_pos hfc]
          rcases w.reply with _ | v
          · exact ⟨rfl, rfl⟩
          · exact ⟨rfl, rfl⟩
        · rw [if_neg hfc]
          exact ⟨rfl, rfl⟩

theorem C6_witness :
    ("TCP" = "TCP" ∨ "TCP" = "RTU") ∧
    get_modbus_client "TCP" (some 5) 9 = (some 5, some 5, 9) ∧
    get_modbus_client "TCP" none 0 = (some 0, some 0, 1) ∧
    (read_modbus_value "TCP" (some ⟨1, 1, 3, "uint16"⟩) (some 5) 9
        ⟨false, false, none⟩).2.1 = some 5 :=
  ⟨Or.inl rfl,
   (C6_connection_per_entry "TCP" 9 5).1,
   (C6_connection_per_entry "TCP" 0 0).2.1 (Or.inl rfl),
   ((C6_connection_per_entry "TCP" 9 5).2.2 (some ⟨1, 1, 3, "uint16"⟩)
       ⟨false, false, none⟩).1⟩

/-! ## Rounding helpers -/

theorem roundHalfEven_intCast (n : ℤ) : roundHalfEven ((n : ℚ)) = n := by
  rw [roundHalfEven, Int.floor_intCast, if_pos (by norm_num)]

theorem roundHalfEven_add_half (n : ℤ) :
    roundHalfEven ((n : ℚ) + 1/2) = if Even n then n else n + 1 := by
  have hf : ⌊(n : ℚ) + 1/2⌋ = n := by
    rw [add_comm, Int.floor_add_int]
    norm_num
  rw [roundHalfEven, hf]
  have hsub : (n : ℚ) + 1/2 - n = 1/2 := by ring
  rw [hsub, if_neg (by norm_num), if_neg (by norm_num)]

/-- Claim C7: the Multiply transform computes raw*coefficient + offset; it
rounds only when decimalPlaces > 0, to decimalPlaces digits using
round-half-to-even (0.25 rounds down to 0.2 and 0.35 rounds up to 0.4 at one
digit); with decimalPlaces = 0 the full-precision value is returned
unrounded; and with coefficient = 1, offset = 0, decimalPlaces = 0 the
transform is the numeric identity on the typed raw value. -/
theorem C7_multiply_rounding (mc : Option ModbusConfig) (raw : ℤ) (c o : ℚ)
    (n : ℕ) :
    process_value mc ⟨some "multiply", some c, some o, some 0⟩ (some raw) =
      some (.float ((convert_raw_data_type mc raw).toRat * c + o)) ∧
    process_value mc ⟨some "multiply", some c, some o, some ((n : ℤ) + 1)⟩
        (some raw) =
      some (.float (pyRound ((convert_raw_data_type mc raw).toRat * c + o)
        (n + 1))) ∧
    (process_value mc ⟨some "multiply", some 1, some 0, some 0⟩
        (some raw)).map PyNum.toRat =
      some ((convert_raw_data_type mc raw).toRat) ∧
    pyRound (1/4 : ℚ) 1 = 1/5 ∧
    pyRound (7/20 : ℚ) 1 = 2/5 := by
  refine ⟨?_, ?_, ?_, ?_, ?_⟩
  · simp [process_value]
  · have h1 : (0 : ℤ) < (n : ℤ) + 1 := by positivity
    have h2 : ((n : ℤ) + 1).toNat = n + 1 := by omega
    simp [process_value, h1, h2]
  · simp [process_value, PyNum.toRat]
  · have h : (1/4 : ℚ) * 10 ^ 1 = ((2 : ℤ) : ℚ) + 1/2 := by norm_num
    rw [pyRound, h, roundHalfEven_add_half, if_pos (by decide)]
    norm_num
  · have h : (7/20 : ℚ) * 10 ^ 1 = ((3 : ℤ) : ℚ) + 1/2 := by norm_num
    rw [pyRound, h, roundHalfEven_add_half, if_neg (by decide)]
    norm_num

/-- Claim C8: the raw-to-typed conversion reinterprets the raw integer by the
width/signedness tag: int16 subtracts 65536 exactly when raw > 32767 (so
32767 ↦ 32767, 32768 ↦ -32768, 65535 ↦ -1); int32 subtracts 4294967296
exactly when raw > 2147483647; uint16 and uint32 pass the raw value through;
and any unrecognized tag defaults to uint16 (pass-through) semantics. -/
theorem C8_raw_to_typed (a u f raw : ℤ) (t : String) :
    convert_raw_data_type (some ⟨a, u, f, "int16"⟩) raw =
      .int (if raw > 32767 then raw - 65536 else raw) ∧
    convert_raw_data_type (some ⟨a, u, f, "int32"⟩) raw =
      .int (if raw > 2147483647 then raw - 4294967296 else raw) ∧
    convert_raw_data_type (some ⟨a, u, f, "uint16"⟩) raw = .int raw ∧
    convert_raw_data_type (some ⟨a, u, f, "uint32"⟩) raw = .int raw ∧
    (t ≠ "int16" → t ≠ "uint16" → t ≠ "int32" → t ≠ "uint32" → t ≠ "float32" →
      convert_raw_data_type (some ⟨a, u, f, t⟩) raw = .int raw) ∧
    convert_raw_data_type (some ⟨a, u, f, "int16"⟩) 32767 = .int 32767 ∧
    convert_raw_data_type (some ⟨a, u, f, "int16"⟩) 32768 = .int (-32768) ∧
    convert_raw_data_type (some ⟨a, u, f, "int16"⟩) 65535 = .int (-1) := by
  refine ⟨rfl, rfl, rfl, rfl, ?_, by norm_num [convert_raw_data_type],
    by norm_num [convert_raw_data_type], by norm_num [convert_raw_data_type]⟩
  intro h1 h2 h3 h4 h5
  simp [convert_raw_data_type, h1, h2, h3, h4, h5]

theorem C8_witness :
    ("weird" ≠ "int16") ∧
    convert_raw_data_type (some ⟨0, 1, 3, "weird"⟩) 5 = .int 5 :=
  ⟨by decide,
   (C8_raw_to_typed 0 1 3 5 "weird").2.2.2.2.1 (by decide) (by decide)
     (by decide) (by decide) (by decide)⟩

/-- Claim C9: in the typed-to-protocol step, for numeric target kinds
(Integer32, Gauge32, Counter32) a floating value is multiplied by the
configured scale factor (default 1) and truncated toward zero — not rounded
— while an integral value is cast directly; for the text kind a floating
value is formatted with exactly two fraction digits and an integral value as
plain decimal.  pyInt truncates toward zero (floor above 0, ceiling below),
so 23.5 encodes as Integer 23, and as Text "23.50". -/
theorem C9_typed_to_protocol (sf : Option ℚ) (q : ℚ) (i : ℤ) :
    convert_to_snmp_value ⟨"Integer32", sf⟩ (some (.float q)) =
      .integer (pyInt (q * sf.getD 1)) ∧
    convert_to_snmp_value ⟨"Integer32", sf⟩ (some (.int i)) = .integer i ∧
    convert_to_snmp_value ⟨"Gauge32", sf⟩ (some (.float q)) =
      .gauge (pyInt (q * sf.getD 1)) ∧
    convert_to_snmp_value ⟨"Gauge32", sf⟩ (some (.int i)) = .gauge i ∧
    convert_to_snmp_value ⟨"Counter32", sf⟩ (some (.float q)) =
      .counter (pyInt (q * sf.getD 1)) ∧
    convert_to_snmp_value ⟨"Counter32", sf⟩ (some (.int i)) = .counter i ∧
    convert_to_snmp_value ⟨"OctetString", sf⟩ (some (.float q)) =
      .octetString (formatF2 q) ∧
    convert_to_snmp_value ⟨"OctetString", sf⟩ (some (.int i)) =
      .octetString (toString i) ∧
    (0 ≤ q → (pyInt q : ℚ) ≤ q ∧ q < (pyInt q : ℚ) + 1) ∧
    (q < 0 → q ≤ (pyInt q : ℚ) ∧ (pyInt q : ℚ) < q + 1) ∧
    pyInt ((47 : ℚ)/2) = 23 ∧
    pyInt (-((47 : ℚ)/2)) = -23 ∧
    convert_to_snmp_value ⟨"Integer32", none⟩ (some (.float ((47 : ℚ)/2))) =
      .integer 23 ∧
    convert_to_snmp_value ⟨"OctetString", none⟩ (some (.float ((47 : ℚ)/2))) =
      .octetString "23.50" := by
  refine ⟨rfl, rfl, rfl, rfl, rfl, rfl, rfl, rfl, ?_, ?_, ?_, ?_, ?_, ?_⟩
  · intro hq
    rw [pyInt, if_pos hq]
    exact ⟨Int.floor_le q, Int.lt_floor_add_one q⟩
  · intro hq
    rw [pyInt, if_neg (not_le.mpr hq)]
    exact ⟨Int.le_ceil q, Int.ceil_lt_add_one q⟩
  · rw [pyInt, if_pos (by norm_num)]
    norm_num
  · rw [pyInt, if_neg (by norm_num), Int.ceil_neg]
    norm_num
  · have h1 : ((47 : ℚ)/2 * ((none : Option ℚ).getD 1)) = 47/2 := by
      norm_num
    calc convert_to_snmp_value ⟨"Integer32", none⟩ (some (.float ((47 : ℚ)/2)))
        = .integer (pyInt ((47 : ℚ)/2 * ((none : Option ℚ).getD 1))) := rfl
      _ = .integer 23 := by
          rw [h1, pyInt, if_pos (by norm_num)]
          norm_num
  · have h1 : (47 : ℚ)/2 * 100 = ((2350 : ℤ) : ℚ) := by norm_num
    calc convert_to_snmp_value ⟨"OctetString", none⟩ (some (.float ((47 : ℚ)/2)))
        = .octetString (formatF2 ((47 : ℚ)/2)) := rfl
      _ = .octetString "23.50" := by
          rw [formatF2, h1, roundHalfEven_intCast]
          decide

theorem C9_witness :
    ((0 : ℚ) ≤ 0) ∧ ((pyInt (0 : ℚ) : ℚ) ≤ 0 ∧ (0 : ℚ) < (pyInt (0 : ℚ) : ℚ) + 1) :=
  ⟨le_refl 0, (C9_typed_to_protocol none 0 0).2.2.2.2.2.2.2.2.1 (le_refl 0)⟩

/-- Claim C10: for every system entry, an exception during value production
(a none body) yields the Text value "Error", an unrecognized system-entry
kind yields the Text value "Unknown Type", and in either failure case the
produced value is never an Integer — in particular never the integer
read-failure sentinel used by backend-mapped entries. -/
theorem C10_system_entry_failure_text (h : SystemHandler) (tz : String)
    (w : SysWorld) :
    (SystemOIDHandler_call_body h tz w = none →
      SystemOIDHandler_call h tz w = .octetString "Error") ∧
    (h.oid_type ≠ "fixed_value" → h.oid_type ≠ "uptime" →
      h.oid_type ≠ "utc_time" →
      SystemOIDHandler_call h tz w = .octetString "Unknown Type") ∧
    ((SystemOIDHandler_call_body h tz w = none ∨
        (h.oid_type ≠ "fixed_value" ∧ h.oid_type ≠ "uptime" ∧
          h.oid_type ≠ "utc_time")) →
      ∀ z : ℤ, SystemOIDHandler_call h tz w ≠ .integer z) := by
  refine ⟨?_, ?_, ?_⟩
  · intro hb
    rw [SystemOIDHandler_call, hb]
    rfl
  · intro h1 h2 h3
    simp [SystemOIDHandler_call, SystemOIDHandler_call_body, h1, h2, h3]
  · rintro (hb | ⟨h1, h2, h3⟩) z
    · rw [SystemOIDHandler_call, hb]
      simp
    · simp [SystemOIDHandler_call, SystemOIDHandler_call_body, h1, h2, h3]

theorem C10_witness :
    SystemOIDHandler_call_body ⟨[1], "fixed_value", "Integer", some (.vStr "abc")⟩
      "+08" ⟨0, fun _ => ""⟩ = none ∧
    SystemOIDHandler_call ⟨[1], "fixed_value", "Integer", some (.vStr "abc")⟩
      "+08" ⟨0, fun _ => ""⟩ = .octetString "Error" ∧
    SystemOIDHandler_call ⟨[1], "bogus", "OctetString", none⟩ "+08"
      ⟨0, fun _ => ""⟩ = .octetString "Unknown Type" ∧
    SystemOIDHandler_call ⟨[1], "fixed_value", "Integer", some (.vStr "abc")⟩
      "+08" ⟨0, fun _ => ""⟩ ≠ .integer (-99998) :=
  ⟨by decide,
   (C10_system_entry_failure_text ⟨[1], "fixed_value", "Integer",
       some (.vStr "abc")⟩ "+08" ⟨0, fun _ => ""⟩).1 (by decide),
   (C10_system_entry_failure_text ⟨[1], "bogus", "OctetString", none⟩ "+08"
       ⟨0, fun _ => ""⟩).2.1 (by decide) (by decide) (by decide),
   (C10_system_entry_failure_text ⟨[1], "fixed_value", "Integer",
       some (.vStr "abc")⟩ "+08" ⟨0, fun _ => ""⟩).2.2 (Or.inl (by decide))
     (-99998)⟩

end SnmpBridge
